import Mathlib

/-
Verification of the litterbox sandbox orchestrator against its
natural-language specification.

The Rust sources are shallowly embedded: pure helpers (slugify, name
formatting, exit-code conversion) become Lean functions; effectful
operations (git snapshot commits, the container verbs, the sandbox create
pipeline) become functions over an explicit state together with an oracle
that fixes the outcome of each external call (git object-database writes,
container-engine responses, TCP bind probes).  Machine integers are
modelled as Nat / Int with explicit range checks where the Rust code
performs checked conversions.
-/

namespace Litterbox

/-! ## Error model (src/src/domain/mod.rs)

git2::Error is modelled by its error code (the only part the code ever
inspects) plus a free-form message; bollard::errors::Error by the
DockerResponseServerError variant (status code + message, the only variant
the code matches on) plus a catch-all. -/

/-- Error codes of git2::Error that the code inspects
(git2::ErrorCode::NotFound, Locked, UnbornBranch; everything else is
only propagated). -/
inductive GitCode where
  | notFound
  | locked
  | unbornBranch
  | generic
  deriving DecidableEq

/-- A git2::Error: the inspected code together with its message. -/
structure GitErr where
  code : GitCode
  msg : String
  deriving DecidableEq

/-- bollard::errors::Error, reduced to the shapes the code matches on:
DockerResponseServerError with a status code, or any other error. -/
inductive BollardErr where
  | dockerResponseServerError (statusCode : Nat) (message : String)
  | otherErr (msg : String)
  deriving DecidableEq

/-- ScmError from src/src/domain/mod.rs (the Open variant is renamed
because `open` is a Lean keyword). -/
inductive ScmErr where
  | openRepo (source : GitErr)
  | branchList (source : GitErr)
  | branchCreate (source : GitErr)
  | branchDelete (source : GitErr)
  | archive (source : GitErr)
  | status (source : GitErr)
  | indexAdd (source : GitErr)
  | indexWrite (source : GitErr)
  | indexWriteTree (source : GitErr)
  | commit (source : GitErr)
  | signature (source : GitErr)
  | head (source : GitErr)
  | reference (source : GitErr)
  | applyPatch (message : String)
  deriving DecidableEq

/-- ComputeError from src/src/domain/mod.rs. -/
inductive ComputeErr where
  | connection (source : BollardErr)
  | imageInspect (source : BollardErr)
  | imagePull (source : BollardErr)
  | containerProvision (source : BollardErr)
  | containerPause (source : BollardErr)
  | containerResume (source : BollardErr)
  | containerDelete (source : BollardErr)
  | containerExec (source : BollardErr)
  | containerUpload (source : BollardErr)
  | containerDownload (source : BollardErr)
  | containerInspect (source : BollardErr)
  deriving DecidableEq

/-- SandboxError from src/src/domain/mod.rs.  Io carries the io::Error
message. -/
inductive SandboxErr where
  | invalidName (name : String) (reason : String)
  | sandboxExists (name : String)
  | sandboxNotFound (name : String)
  | scm (e : ScmErr)
  | compute (e : ComputeErr)
  | setupCommandFailed (exitCode : Int) (stderr : String)
  | io (msg : String)
  | config (msg : String)
  deriving DecidableEq

/-! ## Slugification (src/src/domain/mod.rs, slugify / validate_slug /
slugify_name) -/

/-- Rust char::to_ascii_lowercase: adds 32 to A..Z (65..90), leaves every
other code point unchanged. -/
def asciiLower (c : Char) : Char :=
  if 65 ≤ c.toNat ∧ c.toNat ≤ 90 then Char.ofNat (c.toNat + 32) else c

/-- Rust char::is_ascii_alphanumeric: 0..9, A..Z or a..z. -/
def isAsciiAlphanumeric (c : Char) : Bool :=
  (48 ≤ c.toNat && c.toNat ≤ 57) ||
    (65 ≤ c.toNat && c.toNat ≤ 90) ||
    (97 ≤ c.toNat && c.toNat ≤ 122)

/-- The character loop of slugify: lowercase each char; push it when
ASCII-alphanumeric, otherwise push a single dash for the whole
non-alphanumeric run (tracked by last_was_dash). -/
def slugifyCore : List Char → Bool → List Char
  | [], _ => []
  | c :: rest, lastWasDash =>
    let lower := asciiLower c
    if isAsciiAlphanumeric lower then lower :: slugifyCore rest false
    else if !lastWasDash then '-' :: slugifyCore rest true
    else slugifyCore rest true

/-- Rust str::trim_matches('-'): strips dashes from both ends. -/
def trimDashes (l : List Char) : List Char :=
  (((l.dropWhile (· = '-')).reverse.dropWhile (· = '-'))).reverse

/-- slugify from src/src/domain/mod.rs. -/
def slugify (s : String) : String :=
  String.mk (trimDashes (slugifyCore s.data false))

/-- MAX_SLUG_LENGTH from src/src/domain/mod.rs. -/
def MAX_SLUG_LENGTH : Nat := 63

/-- Character class [a-z0-9-] used by validate_slug
(is_ascii_lowercase, is_ascii_digit, or a dash). -/
def isSlugChar (c : Char) : Bool :=
  (97 ≤ c.toNat && c.toNat ≤ 122) || (48 ≤ c.toNat && c.toNat ≤ 57) ||
    c.toNat = 45

/-- validate_slug from src/src/domain/mod.rs, as the boolean condition
(slugs are ASCII so string length agrees with Rust byte length). -/
def validSlug (slug : String) : Bool :=
  !slug.isEmpty && slug.length ≤ MAX_SLUG_LENGTH && slug.data.all isSlugChar

/-- The fixed reason string of the InvalidName error raised by
validate_slug. -/
def invalidSlugReason : String :=
  "Slugified names must be 1-63 characters and contain only [a-z0-9-]."

/-- Absence of two consecutive dashes in a character list. -/
def NoDoubleDash (l : List Char) : Prop :=
  List.Chain' (fun a b => ¬(a = '-' ∧ b = '-')) l

/-- slugify_name from src/src/domain/mod.rs: slugify, then validate. -/
def slugifyName (name : String) : Except SandboxErr String :=
  let slug := slugify name
  if validSlug slug then .ok slug
  else .error (.invalidName name invalidSlugReason)

/-! ## Container verbs (src/src/compute/mod.rs)

Each verb is a total function of the container engine response, which the
oracle argument supplies: the Rust method makes exactly one engine call
and post-processes its result. -/

/-- DockerCompute::pause_container: success and 409 map to success, any
other error is wrapped as ContainerPause. -/
def pauseContainer (engine : Except BollardErr Unit) : Except SandboxErr Unit :=
  match engine with
  | .ok _ => .ok ()
  | .error (.dockerResponseServerError 409 _) => .ok ()
  | .error e => .error (.compute (.containerPause e))

/-- DockerCompute::resume_container: success and 409 map to success, any
other error is wrapped as ContainerResume. -/
def resumeContainer (engine : Except BollardErr Unit) : Except SandboxErr Unit :=
  match engine with
  | .ok _ => .ok ()
  | .error (.dockerResponseServerError 409 _) => .ok ()
  | .error e => .error (.compute (.containerResume e))

/-- DockerCompute::delete_container (remove with force): success and 404
map to success, any other error is wrapped as ContainerDelete. -/
def deleteContainer (engine : Except BollardErr Unit) : Except SandboxErr Unit :=
  match engine with
  | .ok _ => .ok ()
  | .error (.dockerResponseServerError 404 _) => .ok ()
  | .error e => .error (.compute (.containerDelete e))

/-! ## Exec exit code (src/src/compute/mod.rs, DockerCompute::exec) -/

/-- i32::MAX. -/
def i32Max : Int := 2147483647

/-- i32::MIN. -/
def i32Min : Int := -2147483648

/-- The exit-code computation of DockerCompute::exec:
inspect.exit_code.unwrap_or(1).try_into().unwrap_or(i32::MAX).
The inspect result carries an Option of an i64; try_into to i32 fails
exactly when the value lies outside [i32::MIN, i32::MAX]. -/
def execExitCode (inspectExitCode : Option Int) : Int :=
  let value := inspectExitCode.getD 1
  if value < i32Min ∨ i32Max < value then i32Max else value

/-! ## Forwarded ports and metadata (src/src/config.rs and the uses of
crate::domain::ForwardedPort / ForwardedPortMapping / SandboxConfig /
SandboxMetadata in src/src/sandbox/mod.rs and src/src/mcp.rs; the struct
declarations of the port types and the forwarded_ports fields are not in
the checked-in domain module, so their fields are taken from their
construction sites and the spec data model). -/

/-- A forwarded-port request: logical name plus container target port
(u16, modelled as Nat). -/
structure ForwardedPort where
  name : String
  target : Nat
  deriving DecidableEq

/-- A resolved forwarded-port mapping as built by build_forwarded_ports
and returned in metadata. -/
structure ForwardedPortMapping where
  name : String
  target : Nat
  hostPort : Nat
  envVar : String
  deriving DecidableEq

/-- SandboxConfig: image, optional setup command, forwarded ports. -/
structure SandboxConfig where
  image : String
  setupCommand : Option String
  forwardedPorts : List ForwardedPort
  deriving DecidableEq

/-- SandboxStatus from src/src/domain/mod.rs. -/
inductive SandboxStatus where
  | active
  | paused
  | errorStatus (reason : String)
  deriving DecidableEq

/-- SandboxMetadata: name, branch, container id, status, forwarded
ports. -/
structure SandboxMetadata where
  name : String
  branchName : String
  containerId : String
  status : SandboxStatus
  forwardedPorts : List ForwardedPortMapping
  deriving DecidableEq

/-- ExecutionResult from src/src/domain/mod.rs (exit_code is an i32,
modelled as Int). -/
structure ExecutionResult where
  exitCode : Int
  stdout : String
  stderr : String
  deriving DecidableEq

/-! ## Config validation (src/src/config_loader.rs, validate_ports) -/

/-- ConfigError from src/src/config.rs (FileNotFound path kept as a
string). -/
inductive ConfigErr where
  | fileNotFound (path : String)
  | parseError (msg : String)
  | missingRequiredKey (key : String)
  deriving DecidableEq

/-- Display of a SandboxError InvalidName, as used when validate_ports
stringifies the slugify_name error into a ParseError. -/
def invalidNameToString (name reason : String) : String :=
  "Invalid sandbox name: \x27" ++ name ++ "\x27. " ++ reason

/-- The loop of validate_ports: reject a zero target, slugify each name,
reject a slug already in the seen set. -/
def validatePortsGo : List ForwardedPort → List String → Except ConfigErr Unit
  | [], _ => .ok ()
  | port :: rest, seen =>
    if port.target = 0 then
      .error (.parseError ("Invalid forwarded port target: " ++ toString port.target))
    else
      match slugifyName port.name with
      | .error (.invalidName n r) => .error (.parseError (invalidNameToString n r))
      | .error _ => .error (.parseError "")
      | .ok slug =>
        if slug ∈ seen then
          .error (.parseError
            ("Duplicate forwarded port name after slugify: \x27" ++ slug ++ "\x27"))
        else validatePortsGo rest (slug :: seen)

/-- validate_ports from src/src/config_loader.rs, over the ports list. -/
def validatePorts (ports : List ForwardedPort) : Except ConfigErr Unit :=
  validatePortsGo ports []

/-! ## Port allocator (src/src/sandbox/mod.rs, allocate_host_port /
env_var_for_slug / build_forwarded_ports)

The TCP bind probe is an oracle: bindOk attempt candidate tells whether
binding 127.0.0.1:candidate succeeds at the given attempt; the
nanosecond-clock seed of each allocator call is likewise an oracle
input. -/

/-- DEFAULT_PORT_RANGE_START. -/
def DEFAULT_PORT_RANGE_START : Nat := 3000

/-- DEFAULT_PORT_RANGE_END. -/
def DEFAULT_PORT_RANGE_END : Nat := 8000

/-- PORT_ALLOC_MAX_RETRIES. -/
def PORT_ALLOC_MAX_RETRIES : Nat := 32

/-- Rust char::to_ascii_uppercase: subtracts 32 from a..z (97..122),
leaves every other code point unchanged. -/
def asciiUpper (c : Char) : Char :=
  if 97 ≤ c.toNat ∧ c.toNat ≤ 122 then Char.ofNat (c.toNat - 32) else c

/-- env_var_for_slug: LITTERBOX_FWD_PORT_ plus the slug with dashes
replaced by underscores and then ASCII-uppercased. -/
def envVarForSlug (slug : String) : String :=
  "LITTERBOX_FWD_PORT_" ++
    String.mk (slug.data.map (fun c => asciiUpper (if c = '-' then '_' else c)))

/-- allocate_host_port: reject an inverted range; otherwise probe
min(32, range) candidates start + (seed + k) mod range and accept the
first whose TCP bind succeeds. -/
def allocateHostPort (rangeStart rangeEnd : Nat) (seed : Nat)
    (bindOk : Nat → Nat → Bool) : Except SandboxErr Nat :=
  if rangeEnd < rangeStart then
    .error (.config ("Invalid port range: " ++ toString rangeStart ++ "-" ++
      toString rangeEnd))
  else
    match (List.range (min PORT_ALLOC_MAX_RETRIES (rangeEnd - rangeStart + 1))).find?
        (fun attempt => bindOk attempt
          (rangeStart + (seed + attempt) % (rangeEnd - rangeStart + 1))) with
    | some attempt =>
      .ok (rangeStart + (seed + attempt) % (rangeEnd - rangeStart + 1))
    | none =>
      .error (.config ("No available host ports in range " ++
        toString rangeStart ++ "-" ++ toString rangeEnd))

/-- The loop body of build_forwarded_ports, indexed by the allocator call
number so each call sees its own clock seed and bind outcomes.  Port
bindings (container-port key to host port) are kept as an association
list in insertion order. -/
def buildForwardedPortsGo (seeds : Nat → Nat) (bindOk : Nat → Nat → Nat → Bool) :
    List ForwardedPort → Nat →
    Except SandboxErr (List String × List (String × Nat) × List ForwardedPortMapping)
  | [], _ => .ok ([], [], [])
  | port :: rest, i =>
    match slugifyName port.name with
    | .error e => .error e
    | .ok slug =>
      let envKey := envVarForSlug slug
      match allocateHostPort DEFAULT_PORT_RANGE_START DEFAULT_PORT_RANGE_END
          (seeds i) (bindOk i) with
      | .error e => .error e
      | .ok hostPort =>
        match buildForwardedPortsGo seeds bindOk rest (i + 1) with
        | .error e => .error e
        | .ok (env, bindings, forwarded) =>
          .ok ((envKey ++ "=" ++ toString hostPort) :: env,
            (toString port.target ++ "/tcp", hostPort) :: bindings,
            { name := port.name, target := port.target, hostPort := hostPort,
              envVar := envKey } :: forwarded)

/-- build_forwarded_ports from src/src/sandbox/mod.rs. -/
def buildForwardedPorts (ports : List ForwardedPort) (seeds : Nat → Nat)
    (bindOk : Nat → Nat → Nat → Bool) :
    Except SandboxErr (List String × List (String × Nat) × List ForwardedPortMapping) :=
  if ports.isEmpty then .ok ([], [], [])
  else buildForwardedPortsGo seeds bindOk ports 0

/-! ## Naming helpers (src/src/sandbox/mod.rs) -/

/-- container_name_for_slug. -/
def containerNameForSlug (repoPfx slug : String) : String :=
  "litterbox-" ++ repoPfx ++ "-" ++ slug

/-- branch_name_for_slug (identical to GitScm::branch_name). -/
def branchNameForSlug (slug : String) : String :=
  "litterbox/" ++ slug

/-! ## Git snapshot engine (src/src/scm/mod.rs)

The repository is an explicit state: a ref store (name to commit oid),
the HEAD file content (symbolic ref name or detached oid), the commit
object database (an association list keyed by oid, with a fresh-oid
supply for newly written commits), and the index and working tree as
opaque byte content that exists only so the frame property can be
stated.  Tree objects are content-addressed, so a tree oid is modelled
as the canonical tree value itself, wrapped in Option so that the
distinguished git2::Oid::zero (never the oid of a written tree) has a
representation.  Failures of the fallible git2 calls the function makes
(signature lookup, filesystem reads of the staging directory, tree
write, tree lookup, commit write, and each ref-update attempt, which can
also report a Locked contention error) are injected by an oracle. -/

/-- A tree entry as produced by add_directory_to_tree: a blob with git
filemode 0o100755 or 0o100644, or a subtree. -/
inductive TEntry where
  | blob (name : String) (content : List Nat) (filemode : Nat)
  | subtree (name : String) (entries : List TEntry)

/-- An entry of the staging directory on disk: a file (with its
executable permission bit) or a subdirectory. -/
inductive FsEntry where
  | file (name : String) (content : List Nat) (executable : Bool)
  | directory (name : String) (entries : List FsEntry)

mutual

/-- Structural equality of tree entries (DecidableEq cannot be derived
for this nested inductive). -/
def TEntry.beqFn : TEntry → TEntry → Bool
  | .blob n c m, .blob n2 c2 m2 => n == n2 && c == c2 && m == m2
  | .subtree n es, .subtree n2 es2 => n == n2 && TEntry.beqListFn es es2
  | _, _ => false

/-- Structural equality of tree entry lists. -/
def TEntry.beqListFn : List TEntry → List TEntry → Bool
  | [], [] => true
  | a :: as, b :: bs => TEntry.beqFn a b && TEntry.beqListFn as bs
  | _, _ => false

end

/-- A tree oid: some tree value (content addressing makes equal trees
collide exactly when their canonical values are equal), or none for
git2::Oid::zero, which no written tree ever has. -/
def TreeId : Type := Option (List TEntry)

/-- Equality test of tree oids (git compares the 20-byte hashes; under
content addressing that is structural equality of the canonical trees —
the reflection lemma treeIdBeq_iff below makes this precise). -/
def treeIdBeq : TreeId → TreeId → Bool
  | some t1, some t2 => TEntry.beqListFn t1 t2
  | none, none => true
  | _, _ => false

/-- git2::Oid::zero as a TreeId. -/
def zeroTreeOid : TreeId := none

/-- add_directory_to_tree from src/src/scm/mod.rs: walk the staging
directory, skip every entry named .git (the check precedes the
file/directory distinction), insert files as blobs with mode 0o100755
when any executable bit is set and 0o100644 otherwise, and recurse into
subdirectories with mode 0o040000 tree entries. -/
def addDirectoryToTree : List FsEntry → List TEntry
  | [] => []
  | .file name content executable :: rest =>
    if name = ".git" then addDirectoryToTree rest
    else .blob name content (if executable then 0o100755 else 0o100644) ::
      addDirectoryToTree rest
  | .directory name entries :: rest =>
    if name = ".git" then addDirectoryToTree rest
    else .subtree name (addDirectoryToTree entries) :: addDirectoryToTree rest

/-- A commit object in the object database. -/
structure CommitObj where
  treeId : TreeId
  parents : List Nat
  message : String

/-- The content of the HEAD file: a symbolic ref name or a detached
oid. -/
inductive HeadContent where
  | symbolicRef (refname : String)
  | detached (oid : Nat)
  deriving DecidableEq

/-- The repository state visible to commit_snapshot_from_staging. -/
structure GitState where
  refs : String → Option Nat
  headContent : HeadContent
  commits : List (Nat × CommitObj)
  nextOid : Nat
  indexBytes : List Nat
  worktree : List (String × List Nat)

/-- Commit lookup in the object database. -/
def lookupCommit (st : GitState) (oid : Nat) : Option CommitObj :=
  (st.commits.find? (fun p => p.1 == oid)).map (·.2)

/-- Resolution of HEAD to a commit oid (none models an unborn branch). -/
def resolveHead (st : GitState) : Option Nat :=
  match st.headContent with
  | .detached oid => some oid
  | .symbolicRef r => st.refs r

/-- Force-write of one ref. -/
def setRef (st : GitState) (name : String) (v : Option Nat) : GitState :=
  { st with refs := fun n => if n = name then v else st.refs n }

/-- GitScm::snapshot_branch_ref: refs/heads/ plus the pinned branch, or
the default refs/heads/litterbox-snapshots. -/
def snapshotBranchRefName : Option String → String
  | some branch => "refs/heads/" ++ branch
  | none => "refs/heads/litterbox-snapshots"

/-- GitScm::branch_name (also used by ThreadSafeScm::for_sandbox to pin
the snapshot branch of a sandbox). -/
def gitBranchName (slug : String) : String := "litterbox/" ++ slug

/-- The outcome of one set_target / reference-creation attempt in the
final ref update. -/
inductive UpdRes where
  | ok
  | locked
  | fail
  deriving DecidableEq

/-- Failure injection for the fallible git2 calls inside
commit_snapshot_from_staging. -/
structure SnapOracle where
  sigFail : Bool
  readDirFail : Bool
  treeWriteFail : Bool
  findTreeFail : Bool
  commitFail : Bool
  refUpdate : Nat → UpdRes

/-- The max_retries bound of the ref-update loop. -/
def maxRetries : Nat := 5

/-- The retry loop of the final ref update: attempt, and on a Locked
error with retries < max_retries back off and retry.  The loop performs
at most maxRetries + 1 attempts, which bounds the fuel. -/
def refUpdateLoop (f : Nat → UpdRes) : Nat → Nat → Bool
  | _, 0 => false
  | retries, fuel + 1 =>
    match f retries with
    | .ok => true
    | .locked => if retries < maxRetries then refUpdateLoop f (retries + 1) fuel else false
    | .fail => false

/-- GitScm::restore_snapshot_ref: force the ref back to the backup oid,
or delete it (a no-op when already absent) if the backup was None. -/
def restoreSnapshotRef (st : GitState) (refName : String) (backup : Option Nat) :
    GitState :=
  match backup with
  | some oid => setRef st refName (some oid)
  | none => setRef st refName none

/-- GitScm::snapshot_parent: peel the snapshot ref to a commit; when the
ref is absent, fall back to head_commit_optional (none on an unborn
HEAD). -/
def snapshotParent (st : GitState) (refName : String) :
    Except SandboxErr (Option (Nat × CommitObj)) :=
  match st.refs refName with
  | some oid =>
    match lookupCommit st oid with
    | some c => .ok (some (oid, c))
    | none => .error (.scm (.reference ⟨.generic, "peel to commit failed"⟩))
  | none =>
    match resolveHead st with
    | none => .ok none
    | some h =>
      match lookupCommit st h with
      | some c => .ok (some (h, c))
      | none => .error (.scm (.head ⟨.generic, "peel to commit failed"⟩))

/-- The tail of commit_snapshot_from_staging once the built tree is known
to differ from the parent tree: find_tree, create the commit without
updating any ref, then force-update the snapshot ref with the retry
loop, restoring the backup on failure. -/
def commitAndUpdateRef (orcl : SnapOracle) (st : GitState) (refName : String)
    (backup : Option Nat) (parents : List Nat) (treeOid : TreeId)
    (message : String) : Except SandboxErr (Option Nat) × GitState :=
  if orcl.findTreeFail then
    (.error (.scm (.commit ⟨.generic, "find tree failed"⟩)),
      restoreSnapshotRef st refName backup)
  else if orcl.commitFail then
    (.error (.scm (.commit ⟨.generic, "commit failed"⟩)),
      restoreSnapshotRef st refName backup)
  else
    let oid := st.nextOid
    let stC : GitState :=
      { st with
        commits := (oid, { treeId := treeOid, parents := parents, message := message })
          :: st.commits,
        nextOid := st.nextOid + 1 }
    if refUpdateLoop orcl.refUpdate 0 (maxRetries + 1) then
      (.ok (some oid), setRef stC refName (some oid))
    else
      (.error (.scm (.commit ⟨.generic, "ref update failed"⟩)),
        restoreSnapshotRef stC refName backup)

/-- GitScm::commit_snapshot_from_staging: resolve the parent and the
signature, back up the snapshot ref, build a tree from the staging
directory (failures of the filesystem walk propagate as Io without a
restore, failures of the tree write restore the backup), return None
when the tree equals the parent tree (or equals Oid::zero with no
parent), otherwise create the commit and force-update the ref. -/
def commitSnapshotFromStaging (branch : Option String) (orcl : SnapOracle)
    (st : GitState) (staging : List FsEntry) (message : String) :
    Except SandboxErr (Option Nat) × GitState :=
  let refName := snapshotBranchRefName branch
  match snapshotParent st refName with
  | .error e => (.error e, st)
  | .ok parent =>
    if orcl.sigFail then
      (.error (.scm (.signature ⟨.generic, "signature failed"⟩)), st)
    else
      let backup := st.refs refName
      if orcl.readDirFail then (.error (.io "read_dir failed"), st)
      else
        let entries := addDirectoryToTree staging
        if orcl.treeWriteFail then
          (.error (.scm (.commit ⟨.generic, "tree write failed"⟩)),
            restoreSnapshotRef st refName backup)
        else
          let treeOid : TreeId := some entries
          match parent with
          | some (parentOid, parentCommit) =>
            if treeIdBeq parentCommit.treeId treeOid then (.ok none, st)
            else commitAndUpdateRef orcl st refName backup [parentOid] treeOid message
          | none =>
            if treeIdBeq treeOid zeroTreeOid then (.ok none, st)
            else commitAndUpdateRef orcl st refName backup [] treeOid message

/-- The oracle of a run in which every external call succeeds and the
ref update is never contended. -/
def honestOracle : SnapOracle :=
  { sigFail := false, readDirFail := false, treeWriteFail := false,
    findTreeFail := false, commitFail := false, refUpdate := fun _ => .ok }

/-! ## Sandbox create pipeline (src/src/sandbox/mod.rs,
DockerSandboxProvider::create)

The world records which owned resources exist (the sandbox branch and
the container); the outcome of each external step is supplied by an
oracle.  Branch existence determines the SandboxExists refusal of
create_branch, matching GitScm::create_branch; teardown calls
(delete_branch / delete_container) discard their own errors in the
source, and are modelled as clearing the flag. -/

/-- The resources owned by a sandbox-create run. -/
structure CreateWorld where
  branch : Bool
  container : Bool
  deriving DecidableEq

/-- Outcomes of the external calls made by create, in pipeline order. -/
structure CreateOracle where
  createBranchFail : Option GitErr
  repoPfxRes : Except SandboxErr String
  makeArchiveRes : Except SandboxErr Unit
  stageArchiveRes : Except SandboxErr Unit
  ensureImageRes : Except SandboxErr Unit
  portSeeds : Nat → Nat
  portBindOk : Nat → Nat → Nat → Bool
  createContainerRes : Except SandboxErr String
  uploadPathRes : Except SandboxErr Unit
  setupExecRes : Except SandboxErr ExecutionResult

/-- is_container_name_conflict: a ContainerProvision wrapping a 409
server response. -/
def isContainerNameConflict : SandboxErr → Bool
  | .compute (.containerProvision (.dockerResponseServerError 409 _)) => true
  | _ => false

/-- DockerSandboxProvider::create: slugify, create the branch, resolve
the repo prefix, archive HEAD and stage it, ensure the image, build the
forwarded ports, create and start the container, upload the staged tree,
run the setup command, and on failure tear down what was built — except
that the build_forwarded_ports step propagates its error with no
teardown (the lone bare question-mark among the compensated steps). -/
def createSandbox (orcl : CreateOracle) (w : CreateWorld) (name : String)
    (config : SandboxConfig) : Except SandboxErr SandboxMetadata × CreateWorld :=
  match slugifyName name with
  | .error e => (.error e, w)
  | .ok slug =>
    if w.branch then (.error (.sandboxExists slug), w)
    else
      match orcl.createBranchFail with
      | some e => (.error (.scm (.branchCreate e)), w)
      | none =>
        let wB : CreateWorld := { w with branch := true }
        match orcl.repoPfxRes with
        | .error e => (.error e, wB)
        | .ok _repoPfx =>
          match orcl.makeArchiveRes with
          | .error e => (.error e, { wB with branch := false })
          | .ok _ =>
            match orcl.stageArchiveRes with
            | .error e => (.error e, { wB with branch := false })
            | .ok _ =>
              match orcl.ensureImageRes with
              | .error e => (.error e, { wB with branch := false })
              | .ok _ =>
                match buildForwardedPorts config.forwardedPorts orcl.portSeeds
                    orcl.portBindOk with
                | .error e => (.error e, wB)
                | .ok (_, _, forwarded) =>
                  match orcl.createContainerRes with
                  | .error e =>
                    if isContainerNameConflict e then
                      (.error (.sandboxExists slug), { wB with branch := false })
                    else (.error e, { wB with branch := false })
                  | .ok containerId =>
                    let wC : CreateWorld := { wB with container := true }
                    match orcl.uploadPathRes with
                    | .error e => (.error e, { branch := false, container := false })
                    | .ok _ =>
                      match config.setupCommand with
                      | some _ =>
                        match orcl.setupExecRes with
                        | .error e =>
                          (.error e, { branch := false, container := false })
                        | .ok result =>
                          if result.exitCode ≠ 0 then
                            (.error (.setupCommandFailed result.exitCode
                              (if result.stderr = "" then result.stdout
                               else result.stderr)),
                              { branch := false, container := false })
                          else
                            (.ok { name := slug,
                                   branchName := branchNameForSlug slug,
                                   containerId := containerId,
                                   status := .active,
                                   forwardedPorts := forwarded }, wC)
                      | none =>
                        (.ok { name := slug,
                               branchName := branchNameForSlug slug,
                               containerId := containerId,
                               status := .active,
                               forwardedPorts := forwarded }, wC)

/-! ## MCP dispatcher helpers (src/src/mcp.rs) -/

/-- McpError, reduced to the two kinds the dispatcher produces together
with the message. -/
inductive McpErr where
  | invalidParams (msg : String)
  | internalError (msg : String)
  deriving DecidableEq

/-- Display of GitErr inside ScmError messages (git2::Error displays its
message). -/
def gitErrToString (e : GitErr) : String := e.msg

/-- Display of BollardErr inside ComputeError messages. -/
def bollardErrToString : BollardErr → String
  | .dockerResponseServerError code msg =>
    "Docker responded with status code " ++ toString code ++ ": " ++ msg
  | .otherErr msg => msg

/-- Display of ScmError per its thiserror attributes. -/
def scmErrToString : ScmErr → String
  | .openRepo e => "Git repository open failed: " ++ gitErrToString e
  | .branchList e => "Git branch listing failed: " ++ gitErrToString e
  | .branchCreate e => "Git branch creation failed: " ++ gitErrToString e
  | .branchDelete e => "Git branch deletion failed: " ++ gitErrToString e
  | .archive e => "Git archive failed: " ++ gitErrToString e
  | .status e => "Git status failed: " ++ gitErrToString e
  | .indexAdd e => "Git index add failed: " ++ gitErrToString e
  | .indexWrite e => "Git index write failed: " ++ gitErrToString e
  | .indexWriteTree e => "Git index write tree failed: " ++ gitErrToString e
  | .commit e => "Git commit failed: " ++ gitErrToString e
  | .signature e => "Git signature failed: " ++ gitErrToString e
  | .head e => "Git head failed: " ++ gitErrToString e
  | .reference e => "Git reference failed: " ++ gitErrToString e
  | .applyPatch m => "failed to apply patch: " ++ m

/-- Display of ComputeError per its thiserror attributes. -/
def computeErrToString : ComputeErr → String
  | .connection e => "Docker client connection failed: " ++ bollardErrToString e
  | .imageInspect e => "Docker image inspection failed: " ++ bollardErrToString e
  | .imagePull e => "Docker image pull failed: " ++ bollardErrToString e
  | .containerProvision e =>
    "Docker container provisioning failed: " ++ bollardErrToString e
  | .containerPause e => "Docker pause failed: " ++ bollardErrToString e
  | .containerResume e => "Docker resume failed: " ++ bollardErrToString e
  | .containerDelete e => "Docker delete failed: " ++ bollardErrToString e
  | .containerExec e => "Docker exec failed: " ++ bollardErrToString e
  | .containerUpload e => "Docker upload failed: " ++ bollardErrToString e
  | .containerDownload e => "Docker download failed: " ++ bollardErrToString e
  | .containerInspect e => "Docker container inspect failed: " ++ bollardErrToString e

/-- Display of SandboxError per its thiserror attributes. -/
def sandboxErrToString : SandboxErr → String
  | .invalidName name reason => invalidNameToString name reason
  | .sandboxExists name => "Sandbox \x27" ++ name ++ "\x27 already exists."
  | .sandboxNotFound name => "Sandbox \x27" ++ name ++ "\x27 not found."
  | .scm e => "SCM error: " ++ scmErrToString e
  | .compute e => "Compute error: " ++ computeErrToString e
  | .setupCommandFailed exitCode stderr =>
    "Setup command failed with exit code " ++ toString exitCode ++ ": " ++ stderr
  | .io msg => "I/O error: " ++ msg
  | .config msg => "Configuration error: " ++ msg

/-- map_error from src/src/mcp.rs: user errors become invalid_params,
everything else internal_error. -/
def mapError (e : SandboxErr) : McpErr :=
  match e with
  | .invalidName _ _ => .invalidParams (sandboxErrToString e)
  | .sandboxExists _ => .invalidParams (sandboxErrToString e)
  | .sandboxNotFound _ => .invalidParams (sandboxErrToString e)
  | _ => .internalError (sandboxErrToString e)

/-- is_container_missing from src/src/mcp.rs: a 404 server response
wrapped in ContainerExec or ContainerInspect. -/
def isContainerMissing : SandboxErr → Bool
  | .compute (.containerExec (.dockerResponseServerError 404 _)) => true
  | .compute (.containerInspect (.dockerResponseServerError 404 _)) => true
  | _ => false

/-- map_sandbox_error from src/src/mcp.rs: the container-missing marker
becomes an invalid_params Sandbox-not-found message, everything else
goes through map_error. -/
def mapSandboxError (name : String) (e : SandboxErr) : McpErr :=
  if isContainerMissing e then
    .invalidParams ("Sandbox \x27" ++ name ++ "\x27 not found.")
  else mapError e

/-- repo_prefix_from_path from src/src/scm/mod.rs, applied to the
basename of the working directory: slugify it, with fallback repo. -/
def repoPfxFromBase (base : String) : String :=
  let slug := slugify base
  if slug = "" then "repo" else slug

/-- ThreadSafeScm::repo_prefix: the configured project slug override if
present, otherwise the slug of the working-directory basename. -/
def threadSafeRepoPfx (slugOverride : Option String) (workdirBase : String) :
    String :=
  match slugOverride with
  | some p => p
  | none => repoPfxFromBase workdirBase

/-- resolve_sandbox_metadata from src/src/mcp.rs: slugify the name, load
the config (outcome given by configLoad: an error message or the
project-slug override), open the repository (scmOpenFail), and
synthesize metadata — Active status, empty forwarded ports, container id
litterbox-prefix-slug — with no container-engine call. -/
def resolveSandboxMetadata (name : String)
    (configLoad : Except String (Option String)) (scmOpenFail : Option SandboxErr)
    (workdirBase : String) : Except SandboxErr SandboxMetadata :=
  match slugifyName name with
  | .error e => .error e
  | .ok slug =>
    match configLoad with
    | .error e => .error (.config e)
    | .ok slugOverride =>
      match scmOpenFail with
      | some e => .error e
      | none =>
        .ok { name := name,
              branchName := branchNameForSlug slug,
              containerId :=
                containerNameForSlug (threadSafeRepoPfx slugOverride workdirBase)
                  slug,
              status := .active,
              forwardedPorts := [] }

/-! ## Helper lemmas -/

mutual

theorem TEntry.beqFn_iff : (a b : TEntry) → (TEntry.beqFn a b = true ↔ a = b)
  | .blob n c m, .blob n2 c2 m2 => by simp [TEntry.beqFn, and_assoc]
  | .blob _ _ _, .subtree _ _ => by simp [TEntry.beqFn]
  | .subtree n es, .subtree n2 es2 => by
    simp [TEntry.beqFn, TEntry.beqListFn_iff es es2]
  | .subtree _ _, .blob _ _ _ => by simp [TEntry.beqFn]

theorem TEntry.beqListFn_iff :
    (l1 l2 : List TEntry) → (TEntry.beqListFn l1 l2 = true ↔ l1 = l2)
  | [], [] => by simp [TEntry.beqListFn]
  | [], _ :: _ => by simp [TEntry.beqListFn]
  | _ :: _, [] => by simp [TEntry.beqListFn]
  | a :: as, b :: bs => by
    simp [TEntry.beqListFn, TEntry.beqFn_iff a b, TEntry.beqListFn_iff as bs]

end

theorem treeIdBeq_iff (a b : TreeId) : treeIdBeq a b = true ↔ a = b := by
  match a, b with
  | some t1, some t2 =>
    rw [show treeIdBeq (some t1) (some t2) = TEntry.beqListFn t1 t2 from rfl,
      TEntry.beqListFn_iff t1 t2]
    exact ⟨fun h => h ▸ rfl, fun h => by injection h⟩
  | some _, none => simp [treeIdBeq]
  | none, some _ => simp [treeIdBeq]
  | none, none => simp [treeIdBeq]

theorem toNat_ofNat_valid (n : Nat) (h : n < 55296) : (Char.ofNat n).toNat = n := by
  have hv : n.isValidChar := Or.inl h
  simp [Char.ofNat, hv]
  rfl

theorem pushChar_slug (c : Char) (h : isAsciiAlphanumeric (asciiLower c) = true) :
    isSlugChar (asciiLower c) = true := by
  unfold asciiLower at h ⊢
  by_cases hc : 65 ≤ c.toNat ∧ c.toNat ≤ 90
  · rw [if_pos hc] at h ⊢
    have ht : (Char.ofNat (c.toNat + 32)).toNat = c.toNat + 32 :=
      toNat_ofNat_valid _ (by omega)
    simp only [isAsciiAlphanumeric, Bool.or_eq_true, Bool.and_eq_true,
      decide_eq_true_eq, ht] at h
    simp only [isSlugChar, Bool.or_eq_true, Bool.and_eq_true, decide_eq_true_eq, ht]
    omega
  · rw [if_neg hc] at h ⊢
    simp only [isAsciiAlphanumeric, Bool.or_eq_true, Bool.and_eq_true,
      decide_eq_true_eq] at h
    simp only [isSlugChar, Bool.or_eq_true, Bool.and_eq_true, decide_eq_true_eq]
    omega

theorem pushChar_ne_dash (c : Char)
    (h : isAsciiAlphanumeric (asciiLower c) = true) : asciiLower c ≠ '-' := by
  intro he
  rw [he] at h
  exact absurd h (by decide)

theorem slugifyCore_chars : ∀ (cs : List Char) (b : Bool) (c : Char),
    c ∈ slugifyCore cs b → isSlugChar c = true
  | [], _, c => by simp [slugifyCore]
  | a :: rest, b, c => by
    simp only [slugifyCore]
    by_cases h : isAsciiAlphanumeric (asciiLower a) = true
    · rw [if_pos h]
      intro hc
      rcases List.mem_cons.mp hc with h1 | h2
      · rw [h1]
        exact pushChar_slug a h
      · exact slugifyCore_chars rest false c h2
    · rw [if_neg h]
      cases b with
      | true =>
        simp only [Bool.not_true, Bool.false_eq_true, if_false]
        exact slugifyCore_chars rest true c
      | false =>
        simp only [Bool.not_false, if_true]
        intro hc
        rcases List.mem_cons.mp hc with h1 | h2
        · rw [h1]
          decide
        · exact slugifyCore_chars rest true c h2

theorem slugifyCore_chain : ∀ (cs : List Char) (b : Bool),
    NoDoubleDash (slugifyCore cs b) ∧
      (∀ c, b = true → (slugifyCore cs b).head? = some c → c ≠ '-')
  | [], b => by
    constructor
    · simp [slugifyCore, NoDoubleDash]
    · simp [slugifyCore]
  | a :: rest, b => by
    simp only [slugifyCore]
    by_cases h : isAsciiAlphanumeric (asciiLower a) = true
    · rw [if_pos h]
      have IH := slugifyCore_chain rest false
      constructor
      · exact List.chain'_cons'.mpr
          ⟨fun y _ hand => (pushChar_ne_dash a h) hand.1, IH.1⟩
      · intro c _ hc
        rw [List.head?_cons] at hc
        injection hc with hc
        rw [← hc]
        exact pushChar_ne_dash a h
    · rw [if_neg h]
      have IH := slugifyCore_chain rest true
      cases b with
      | true =>
        simp only [Bool.not_true, Bool.false_eq_true, if_false]
        exact ⟨IH.1, fun c _ hc => IH.2 c rfl hc⟩
      | false =>
        simp only [Bool.not_false, if_true]
        constructor
        · exact List.chain'_cons'.mpr
            ⟨fun y hy hand => IH.2 y rfl hy hand.2, IH.1⟩
        · intro c hfalse
          exact absurd hfalse (by decide)

theorem getLast?_dropWhile (p : Char → Bool) :
    ∀ (m : List Char), List.dropWhile p m ≠ [] →
      (List.dropWhile p m).getLast? = m.getLast?
  | [] => by simp [List.dropWhile]
  | a :: t => by
    intro h
    rw [List.dropWhile_cons] at h ⊢
    by_cases hpa : p a = true
    · rw [if_pos hpa] at h ⊢
      cases t with
      | nil => simp [List.dropWhile] at h
      | cons b t2 =>
        rw [List.getLast?_cons_cons]
        exact getLast?_dropWhile p (b :: t2) h
    · rw [if_neg hpa]

theorem mem_trimDashes (l : List Char) (c : Char) (h : c ∈ trimDashes l) :
    c ∈ l := by
  unfold trimDashes at h
  rw [List.mem_reverse] at h
  have h2 := List.Sublist.mem h (List.dropWhile_sublist _)
  rw [List.mem_reverse] at h2
  exact List.Sublist.mem h2 (List.dropWhile_sublist _)

theorem head_trimDashes (l : List Char) (c : Char)
    (h : (trimDashes l).head? = some c) : c ≠ '-' := by
  unfold trimDashes at h
  rw [List.head?_reverse] at h
  have hne : List.dropWhile (· = '-') ((l.dropWhile (· = '-')).reverse) ≠ [] := by
    intro h0
    rw [h0] at h
    exact Option.noConfusion h
  rw [getLast?_dropWhile _ _ hne, List.getLast?_reverse] at h
  have hnot := List.head?_dropWhile_not (fun x => x = '-') l
  rw [h] at hnot
  simpa using hnot

theorem last_trimDashes (l : List Char) (c : Char)
    (h : (trimDashes l).getLast? = some c) : c ≠ '-' := by
  unfold trimDashes at h
  rw [List.getLast?_reverse] at h
  have hnot := List.head?_dropWhile_not (fun x => x = '-')
    ((l.dropWhile (· = '-')).reverse)
  rw [h] at hnot
  simpa using hnot

theorem chain_trimDashes (l : List Char) (h : NoDoubleDash l) :
    NoDoubleDash (trimDashes l) := by
  unfold NoDoubleDash at *
  unfold trimDashes
  have h1 := h.suffix (List.dropWhile_suffix (· = '-'))
  have h2 : List.Chain' (fun a b => ¬(a = '-' ∧ b = '-'))
      ((l.dropWhile (· = '-')).reverse) := by
    rw [List.chain'_reverse]
    exact h1.imp (fun a b hab hand => hab ⟨hand.2, hand.1⟩)
  have h3 := h2.suffix (List.dropWhile_suffix (· = '-'))
  rw [List.chain'_reverse]
  exact h3.imp (fun a b hab hand => hab ⟨hand.2, hand.1⟩)

theorem treeIdBeq_refl (a : TreeId) : treeIdBeq a a = true :=
  (treeIdBeq_iff a a).mpr rfl

theorem treeIdBeq_some_zero (l : List TEntry) :
    treeIdBeq (some l) zeroTreeOid = false := rfl

theorem refs_restore (st : GitState) (r : String) (b : Option Nat) :
    (restoreSnapshotRef st r b).refs r = b := by
  cases b <;> simp [restoreSnapshotRef, setRef]

theorem restore_headContent (st : GitState) (r : String) (b : Option Nat) :
    (restoreSnapshotRef st r b).headContent = st.headContent := by
  cases b <;> rfl

theorem restore_indexBytes (st : GitState) (r : String) (b : Option Nat) :
    (restoreSnapshotRef st r b).indexBytes = st.indexBytes := by
  cases b <;> rfl

theorem restore_worktree (st : GitState) (r : String) (b : Option Nat) :
    (restoreSnapshotRef st r b).worktree = st.worktree := by
  cases b <;> rfl

theorem restore_refs_other (st : GitState) (r : String) (b : Option Nat)
    (n : String) (hn : n ≠ r) :
    (restoreSnapshotRef st r b).refs n = st.refs n := by
  cases b <;> simp [restoreSnapshotRef, setRef, hn]

theorem commitAndUpdateRef_cases (orcl : SnapOracle) (st : GitState)
    (refName : String) (backup : Option Nat) (parents : List Nat)
    (treeOid : TreeId) (message : String)
    (r : Except SandboxErr (Option Nat)) (st2 : GitState)
    (h : commitAndUpdateRef orcl st refName backup parents treeOid message =
      (r, st2)) :
    ((∃ e, r = .error e) ∧ st2 = restoreSnapshotRef st refName backup) ∨
    ((∃ e, r = .error e) ∧ st2 = restoreSnapshotRef
      { st with
        commits := (st.nextOid,
          { treeId := treeOid, parents := parents, message := message })
          :: st.commits,
        nextOid := st.nextOid + 1 } refName backup) ∨
    (r = .ok (some st.nextOid) ∧ st2 = setRef
      { st with
        commits := (st.nextOid,
          { treeId := treeOid, parents := parents, message := message })
          :: st.commits,
        nextOid := st.nextOid + 1 } refName (some st.nextOid)) := by
  unfold commitAndUpdateRef at h
  by_cases hft : orcl.findTreeFail = true
  · rw [if_pos hft] at h
    injection h with h1 h2
    exact Or.inl ⟨⟨_, h1.symm⟩, h2.symm⟩
  · rw [if_neg hft] at h
    by_cases hcf : orcl.commitFail = true
    · rw [if_pos hcf] at h
      injection h with h1 h2
      exact Or.inl ⟨⟨_, h1.symm⟩, h2.symm⟩
    · rw [if_neg hcf] at h
      simp only at h
      by_cases hupd : refUpdateLoop orcl.refUpdate 0 (maxRetries + 1) = true
      · rw [if_pos hupd] at h
        injection h with h1 h2
        exact Or.inr (Or.inr ⟨h1.symm, h2.symm⟩)
      · rw [if_neg hupd] at h
        injection h with h1 h2
        exact Or.inr (Or.inl ⟨⟨_, h1.symm⟩, h2.symm⟩)

theorem commit_cases (branch : Option String) (orcl : SnapOracle) (st : GitState)
    (staging : List FsEntry) (message : String)
    (r : Except SandboxErr (Option Nat)) (st2 : GitState)
    (h : commitSnapshotFromStaging branch orcl st staging message = (r, st2)) :
    ((∃ e, r = .error e) ∧ st2 = st) ∨
    (r = .ok none ∧ st2 = st) ∨
    ((∃ e, r = .error e) ∧ st2 = restoreSnapshotRef st
      (snapshotBranchRefName branch) (st.refs (snapshotBranchRefName branch))) ∨
    ((∃ e, r = .error e) ∧ ∃ parents, st2 = restoreSnapshotRef
      { st with
        commits := (st.nextOid,
          { treeId := some (addDirectoryToTree staging), parents := parents,
            message := message }) :: st.commits,
        nextOid := st.nextOid + 1 } (snapshotBranchRefName branch)
      (st.refs (snapshotBranchRefName branch))) ∨
    (r = .ok (some st.nextOid) ∧ ∃ parents, st2 = setRef
      { st with
        commits := (st.nextOid,
          { treeId := some (addDirectoryToTree staging), parents := parents,
            message := message }) :: st.commits,
        nextOid := st.nextOid + 1 } (snapshotBranchRefName branch)
      (some st.nextOid)) := by
  unfold commitSnapshotFromStaging at h
  simp only at h
  cases hp : snapshotParent st (snapshotBranchRefName branch) with
  | error e2 =>
    rw [hp] at h
    simp only at h
    injection h with h1 h2
    exact Or.inl ⟨⟨e2, h1.symm⟩, h2.symm⟩
  | ok parent =>
    rw [hp] at h
    simp only at h
    by_cases hsig : orcl.sigFail = true
    · rw [if_pos hsig] at h
      injection h with h1 h2
      exact Or.inl ⟨⟨_, h1.symm⟩, h2.symm⟩
    · rw [if_neg hsig] at h
      by_cases hrd : orcl.readDirFail = true
      · rw [if_pos hrd] at h
        injection h with h1 h2
        exact Or.inl ⟨⟨_, h1.symm⟩, h2.symm⟩
      · rw [if_neg hrd] at h
        by_cases htw : orcl.treeWriteFail = true
        · rw [if_pos htw] at h
          injection h with h1 h2
          exact Or.inr (Or.inr (Or.inl ⟨⟨_, h1.symm⟩, h2.symm⟩))
        · rw [if_neg htw] at h
          cases parent with
          | some pc =>
            obtain ⟨po, pcommit⟩ := pc
            simp only at h
            by_cases hnoop : treeIdBeq pcommit.treeId
                (some (addDirectoryToTree staging)) = true
            · rw [if_pos hnoop] at h
              injection h with h1 h2
              exact Or.inr (Or.inl ⟨h1.symm, h2.symm⟩)
            · rw [if_neg hnoop] at h
              rcases commitAndUpdateRef_cases _ _ _ _ _ _ _ _ _ h with
                hc | hc | hc
              · exact Or.inr (Or.inr (Or.inl hc))
              · exact Or.inr (Or.inr (Or.inr (Or.inl ⟨hc.1, [po], hc.2⟩)))
              · exact Or.inr (Or.inr (Or.inr (Or.inr ⟨hc.1, [po], hc.2⟩)))
          | none =>
            simp only at h
            rw [if_neg (by rw [treeIdBeq_some_zero]; exact Bool.false_ne_true)]
              at h
            rcases commitAndUpdateRef_cases _ _ _ _ _ _ _ _ _ h with hc | hc | hc
            · exact Or.inr (Or.inr (Or.inl hc))
            · exact Or.inr (Or.inr (Or.inr (Or.inl ⟨hc.1, [], hc.2⟩)))
            · exact Or.inr (Or.inr (Or.inr (Or.inr ⟨hc.1, [], hc.2⟩)))

/-! ## C1: snapshot-ref atomicity under failure -/

/-- Claim C1: whenever commit_snapshot_from_staging returns an error —
at whatever point the failure was injected — the snapshot ref of the
returned repository state equals its value before the call; in
particular a ref that did not exist beforehand does not exist
afterwards. -/
theorem C1_atomic (branch : Option String) (orcl : SnapOracle) (st : GitState)
    (staging : List FsEntry) (message : String) (e : SandboxErr) (st2 : GitState)
    (h : commitSnapshotFromStaging branch orcl st staging message =
      (.error e, st2)) :
    st2.refs (snapshotBranchRefName branch) =
      st.refs (snapshotBranchRefName branch) := by
  rcases commit_cases _ _ _ _ _ _ _ h with
    ⟨_, h2⟩ | ⟨h1, _⟩ | ⟨_, h2⟩ | ⟨_, _, h2⟩ | ⟨h1, _⟩
  · rw [h2]
  · exact absurd h1 (by simp)
  · rw [h2, refs_restore]
  · rw [h2, refs_restore]
  · exact absurd h1 (by simp)

/-- Witness for C1_atomic: a run over the empty repository in which the
oracle makes the commit write fail; the error is returned and the
snapshot ref is still absent. -/
theorem C1_witness :
    (commitSnapshotFromStaging none
        { sigFail := false, readDirFail := false, treeWriteFail := false,
          findTreeFail := false, commitFail := true, refUpdate := fun _ => .ok }
        { refs := fun _ => none, headContent := .symbolicRef "refs/heads/main",
          commits := [], nextOid := 0, indexBytes := [], worktree := [] }
        [.file "a" [49] false] "m").1 =
      .error (.scm (.commit ⟨.generic, "commit failed"⟩)) ∧
    ((commitSnapshotFromStaging none
        { sigFail := false, readDirFail := false, treeWriteFail := false,
          findTreeFail := false, commitFail := true, refUpdate := fun _ => .ok }
        { refs := fun _ => none, headContent := .symbolicRef "refs/heads/main",
          commits := [], nextOid := 0, indexBytes := [], worktree := [] }
        [.file "a" [49] false] "m").2).refs (snapshotBranchRefName none) =
      none :=
  ⟨rfl, C1_atomic none
    { sigFail := false, readDirFail := false, treeWriteFail := false,
      findTreeFail := false, commitFail := true, refUpdate := fun _ => .ok }
    { refs := fun _ => none, headContent := .symbolicRef "refs/heads/main",
      commits := [], nextOid := 0, indexBytes := [], worktree := [] }
    [.file "a" [49] false] "m" (.scm (.commit ⟨.generic, "commit failed"⟩)) _
    rfl⟩

/-! ## C2: frame of commit_snapshot_from_staging -/

/-- Claim C2: commit_snapshot_from_staging — whether it succeeds, skips
or fails — leaves the HEAD file content, the index and the working tree
identical, and changes no ref other than the snapshot ref; only the
snapshot ref and the object database (commits, fresh-oid supply) may
differ in the returned state. -/
theorem C2_frame (branch : Option String) (orcl : SnapOracle) (st : GitState)
    (staging : List FsEntry) (message : String)
    (r : Except SandboxErr (Option Nat)) (st2 : GitState) (n : String)
    (h : commitSnapshotFromStaging branch orcl st staging message = (r, st2))
    (hn : n ≠ snapshotBranchRefName branch) :
    st2.headContent = st.headContent ∧ st2.indexBytes = st.indexBytes ∧
      st2.worktree = st.worktree ∧ st2.refs n = st.refs n := by
  rcases commit_cases _ _ _ _ _ _ _ h with
    ⟨_, h2⟩ | ⟨_, h2⟩ | ⟨_, h2⟩ | ⟨_, _, h2⟩ | ⟨_, _, h2⟩ <;> subst h2
  · exact ⟨rfl, rfl, rfl, rfl⟩
  · exact ⟨rfl, rfl, rfl, rfl⟩
  · exact ⟨restore_headContent .., restore_indexBytes ..,
      restore_worktree .., restore_refs_other _ _ _ _ hn⟩
  · exact ⟨restore_headContent .., restore_indexBytes ..,
      restore_worktree .., restore_refs_other _ _ _ _ hn⟩
  · exact ⟨rfl, rfl, rfl, by simp [setRef, hn]⟩

/-- Witness for C2_frame: a successful run over the empty repository;
HEAD, index, working tree and the unrelated ref refs/heads/other are
unchanged. -/
theorem C2_witness :
    ((commitSnapshotFromStaging none honestOracle
        { refs := fun _ => none, headContent := .symbolicRef "refs/heads/main",
          commits := [], nextOid := 0, indexBytes := [7],
          worktree := [("f", [7])] }
        [.file "a" [49] false] "m").2).headContent =
      HeadContent.symbolicRef "refs/heads/main" ∧
    ((commitSnapshotFromStaging none honestOracle
        { refs := fun _ => none, headContent := .symbolicRef "refs/heads/main",
          commits := [], nextOid := 0, indexBytes := [7],
          worktree := [("f", [7])] }
        [.file "a" [49] false] "m").2).indexBytes = [7] ∧
    ((commitSnapshotFromStaging none honestOracle
        { refs := fun _ => none, headContent := .symbolicRef "refs/heads/main",
          commits := [], nextOid := 0, indexBytes := [7],
          worktree := [("f", [7])] }
        [.file "a" [49] false] "m").2).worktree = [("f", [7])] ∧
    ((commitSnapshotFromStaging none honestOracle
        { refs := fun _ => none, headContent := .symbolicRef "refs/heads/main",
          commits := [], nextOid := 0, indexBytes := [7],
          worktree := [("f", [7])] }
        [.file "a" [49] false] "m").2).refs "refs/heads/other" = none := by
  have h := C2_frame none honestOracle
    { refs := fun _ => none, headContent := .symbolicRef "refs/heads/main",
      commits := [], nextOid := 0, indexBytes := [7], worktree := [("f", [7])] }
    [.file "a" [49] false] "m"
    (commitSnapshotFromStaging none honestOracle
      { refs := fun _ => none, headContent := .symbolicRef "refs/heads/main",
        commits := [], nextOid := 0, indexBytes := [7],
        worktree := [("f", [7])] }
      [.file "a" [49] false] "m").1
    (commitSnapshotFromStaging none honestOracle
      { refs := fun _ => none, headContent := .symbolicRef "refs/heads/main",
        commits := [], nextOid := 0, indexBytes := [7],
        worktree := [("f", [7])] }
      [.file "a" [49] false] "m").2
    "refs/heads/other" rfl (by decide)
  exact h

/-! ## C3: no-op second snapshot of unchanged staging contents -/

theorem second_call_noop (branch : Option String) (st2 : GitState)
    (staging : List FsEntry) (m : String) (po : Nat) (c : CommitObj)
    (href : st2.refs (snapshotBranchRefName branch) = some po)
    (hlk : lookupCommit st2 po = some c)
    (htree : c.treeId = some (addDirectoryToTree staging)) :
    commitSnapshotFromStaging branch honestOracle st2 staging m =
      (.ok none, st2) := by
  unfold commitSnapshotFromStaging
  simp only
  have hparent : snapshotParent st2 (snapshotBranchRefName branch) =
      .ok (some (po, c)) := by
    unfold snapshotParent
    rw [href]
    simp only
    rw [hlk]
  rw [hparent]
  simp only [honestOracle]
  rw [htree]
  simp [treeIdBeq_refl]

theorem commit_ok_honest (branch : Option String) (st : GitState)
    (staging : List FsEntry) (m : String)
    (hparent : ∃ p, snapshotParent st (snapshotBranchRefName branch) = .ok p)
    (hnoop : ∀ po pc, snapshotParent st (snapshotBranchRefName branch) =
      .ok (some (po, pc)) →
      treeIdBeq pc.treeId (some (addDirectoryToTree staging)) = false) :
    (commitSnapshotFromStaging branch honestOracle st staging m).1 =
      .ok (some st.nextOid) := by
  obtain ⟨p, hp⟩ := hparent
  unfold commitSnapshotFromStaging
  simp only
  rw [hp]
  cases p with
  | none =>
    simp [honestOracle, treeIdBeq_some_zero, commitAndUpdateRef,
      refUpdateLoop, maxRetries]
  | some pc =>
    obtain ⟨po, pcommit⟩ := pc
    have hfalse := hnoop po pcommit hp
    simp [honestOracle, hfalse, commitAndUpdateRef, refUpdateLoop, maxRetries]

/-- Claim C3: with the snapshot parent resolvable and the staging tree
differing from the parent tree, the first commit_snapshot_from_staging
call returns Some of a fresh commit id (one unused in the prior object
database), the second call with unchanged staging contents returns None,
and after the second call the snapshot ref still points at the id
returned by the first call. -/
theorem C3_idempotent (branch : Option String) (st : GitState)
    (staging : List FsEntry) (m1 m2 : String) (st1 : GitState)
    (hst1 : st1 = (commitSnapshotFromStaging branch honestOracle st staging
      m1).2)
    (hparent : ∃ p, snapshotParent st (snapshotBranchRefName branch) = .ok p)
    (hnoop : ∀ po pc, snapshotParent st (snapshotBranchRefName branch) =
      .ok (some (po, pc)) →
      treeIdBeq pc.treeId (some (addDirectoryToTree staging)) = false)
    (hfresh : lookupCommit st st.nextOid = none) :
    commitSnapshotFromStaging branch honestOracle st staging m1 =
      (.ok (some st.nextOid), st1) ∧
    lookupCommit st st.nextOid = none ∧
    (commitSnapshotFromStaging branch honestOracle st1 staging m2).1 =
      .ok none ∧
    ((commitSnapshotFromStaging branch honestOracle st1 staging m2).2).refs
      (snapshotBranchRefName branch) = some st.nextOid ∧
    st1.refs (snapshotBranchRefName branch) = some st.nextOid := by
  have hfirst1 := commit_ok_honest branch st staging m1 hparent hnoop
  have h1 : commitSnapshotFromStaging branch honestOracle st staging m1 =
      (.ok (some st.nextOid), st1) := by
    rw [hst1, ← hfirst1]
  refine ⟨h1, hfresh, ?_⟩
  rcases commit_cases _ _ _ _ _ _ _ h1 with
    ⟨⟨e, h1e⟩, _⟩ | ⟨h1e, _⟩ | ⟨⟨e, h1e⟩, _⟩ | ⟨⟨e, h1e⟩, _, _⟩ |
    ⟨h1e, parents, h2⟩
  · exact absurd h1e (by simp)
  · exact absurd h1e (by simp)
  · exact absurd h1e (by simp)
  · exact absurd h1e (by simp)
  · subst h2
    have href : (setRef
        { st with
          commits := (st.nextOid,
            { treeId := some (addDirectoryToTree staging), parents := parents,
              message := m1 }) :: st.commits,
          nextOid := st.nextOid + 1 } (snapshotBranchRefName branch)
        (some st.nextOid)).refs (snapshotBranchRefName branch) =
        some st.nextOid := by
      simp [setRef]
    have hlk : lookupCommit (setRef
        { st with
          commits := (st.nextOid,
            { treeId := some (addDirectoryToTree staging), parents := parents,
              message := m1 }) :: st.commits,
          nextOid := st.nextOid + 1 } (snapshotBranchRefName branch)
        (some st.nextOid)) st.nextOid =
        some { treeId := some (addDirectoryToTree staging), parents := parents,
               message := m1 } := by
      simp [lookupCommit, setRef, List.find?]
    have hsecond := second_call_noop branch _ staging m2 st.nextOid _ href hlk
      rfl
    rw [hsecond]
    exact ⟨rfl, href, href⟩

/-- Witness for C3_idempotent: a fresh repository, one staged file,
honest oracle; the first call returns commit 0 and the second call
returns None with the ref still at commit 0. -/
theorem C3_witness :
    commitSnapshotFromStaging none honestOracle
        { refs := fun _ => none, headContent := .symbolicRef "refs/heads/main",
          commits := [], nextOid := 0, indexBytes := [], worktree := [] }
        [.file "a" [49] false] "m1" =
      (.ok (some 0),
        (commitSnapshotFromStaging none honestOracle
          { refs := fun _ => none,
            headContent := .symbolicRef "refs/heads/main",
            commits := [], nextOid := 0, indexBytes := [], worktree := [] }
          [.file "a" [49] false] "m1").2) ∧
    lookupCommit
      { refs := fun _ => none, headContent := .symbolicRef "refs/heads/main",
        commits := [], nextOid := 0, indexBytes := [], worktree := [] } 0 =
      none ∧
    (commitSnapshotFromStaging none honestOracle
        ((commitSnapshotFromStaging none honestOracle
          { refs := fun _ => none,
            headContent := .symbolicRef "refs/heads/main",
            commits := [], nextOid := 0, indexBytes := [], worktree := [] }
          [.file "a" [49] false] "m1").2) [.file "a" [49] false] "m2").1 =
      .ok none ∧
    ((commitSnapshotFromStaging none honestOracle
        ((commitSnapshotFromStaging none honestOracle
          { refs := fun _ => none,
            headContent := .symbolicRef "refs/heads/main",
            commits := [], nextOid := 0, indexBytes := [], worktree := [] }
          [.file "a" [49] false] "m1").2) [.file "a" [49] false] "m2").2).refs
      (snapshotBranchRefName none) = some 0 ∧
    ((commitSnapshotFromStaging none honestOracle
        { refs := fun _ => none, headContent := .symbolicRef "refs/heads/main",
          commits := [], nextOid := 0, indexBytes := [], worktree := [] }
        [.file "a" [49] false] "m1").2).refs (snapshotBranchRefName none) =
      some 0 :=
  C3_idempotent none
    { refs := fun _ => none, headContent := .symbolicRef "refs/heads/main",
      commits := [], nextOid := 0, indexBytes := [], worktree := [] }
    [.file "a" [49] false] "m1" "m2" _ rfl ⟨none, rfl⟩
    (fun _ _ hc => Option.noConfusion (Except.ok.inj hc)) rfl

/-! ## C4: the ref snapshots are published on -/

/-- Claim C4, counterexample: ThreadSafeScm::for_sandbox pins the
snapshot branch to litterbox/slug, so the snapshot ref of sandbox web is
refs/heads/litterbox/web — the sandbox branch itself — and not the
claimed refs/heads/litterbox-snapshots-web. -/
theorem C4_counterexample :
    snapshotBranchRefName (some (gitBranchName "web")) =
      "refs/heads/litterbox/web" ∧
    snapshotBranchRefName (some (gitBranchName "web")) ≠
      "refs/heads/litterbox-snapshots-web" := by
  refine ⟨rfl, ?_⟩
  decide

theorem refs_of_success (branch : Option String) (orcl : SnapOracle)
    (st : GitState) (staging : List FsEntry) (m : String) (oid : Nat)
    (st2 : GitState)
    (h : commitSnapshotFromStaging branch orcl st staging m =
      (.ok (some oid), st2)) :
    st2.refs (snapshotBranchRefName branch) = some oid := by
  rcases commit_cases _ _ _ _ _ _ _ h with
    ⟨⟨e, h1e⟩, _⟩ | ⟨h1e, _⟩ | ⟨⟨e, h1e⟩, _⟩ | ⟨⟨e, h1e⟩, _, _⟩ |
    ⟨h1e, parents, h2⟩
  · exact absurd h1e (by simp)
  · exact absurd h1e (by simp)
  · exact absurd h1e (by simp)
  · exact absurd h1e (by simp)
  · injection h1e with h1e
    injection h1e with h1e
    subst h1e
    subst h2
    simp [setRef]

/-- Claim C4, amended: a snapshot commit produced for sandbox s (the
snapshot branch pinned by for_sandbox to litterbox/s) is published on
refs/heads/litterbox/s — the sandbox branch ref, not a dedicated
litterbox-snapshots-s ref — and a snapshot commit with no pinned branch
is published on the default refs/heads/litterbox-snapshots. -/
theorem C4_amended (s : String) (o1 o2 : SnapOracle) (stA stB : GitState)
    (stagingA stagingB : List FsEntry) (mA mB : String) (oidA oidB : Nat)
    (st2A st2B : GitState)
    (hA : commitSnapshotFromStaging (some (gitBranchName s)) o1 stA stagingA
      mA = (.ok (some oidA), st2A))
    (hB : commitSnapshotFromStaging none o2 stB stagingB mB =
      (.ok (some oidB), st2B)) :
    st2A.refs ("refs/heads/litterbox/" ++ s) = some oidA ∧
    st2B.refs "refs/heads/litterbox-snapshots" = some oidB := by
  have hname : snapshotBranchRefName (some (gitBranchName s)) =
      "refs/heads/litterbox/" ++ s := by
    show "refs/heads/" ++ ("litterbox/" ++ s) = "refs/heads/litterbox/" ++ s
    rw [← String.append_assoc]
    exact congrArg (fun t => t ++ s) (by decide)
  constructor
  · rw [← hname]
    exact refs_of_success _ _ _ _ _ _ _ hA
  · exact refs_of_success _ _ _ _ _ _ _ hB

/-- Witness for C4_amended: honest-oracle snapshot runs for sandbox web
and for the default branch over the empty repository. -/
theorem C4_witness :
    (commitSnapshotFromStaging (some (gitBranchName "web")) honestOracle
        { refs := fun _ => none, headContent := .symbolicRef "refs/heads/main",
          commits := [], nextOid := 0, indexBytes := [], worktree := [] }
        [.file "a" [49] false] "m" =
      (.ok (some 0),
        (commitSnapshotFromStaging (some (gitBranchName "web")) honestOracle
          { refs := fun _ => none,
            headContent := .symbolicRef "refs/heads/main",
            commits := [], nextOid := 0, indexBytes := [], worktree := [] }
          [.file "a" [49] false] "m").2)) ∧
    (((commitSnapshotFromStaging (some (gitBranchName "web")) honestOracle
        { refs := fun _ => none, headContent := .symbolicRef "refs/heads/main",
          commits := [], nextOid := 0, indexBytes := [], worktree := [] }
        [.file "a" [49] false] "m").2).refs ("refs/heads/litterbox/" ++ "web") =
      some 0 ∧
    ((commitSnapshotFromStaging none honestOracle
        { refs := fun _ => none, headContent := .symbolicRef "refs/heads/main",
          commits := [], nextOid := 0, indexBytes := [], worktree := [] }
        [.file "b" [50] true] "m2").2).refs "refs/heads/litterbox-snapshots" =
      some 0) :=
  ⟨rfl, C4_amended "web" honestOracle honestOracle
    { refs := fun _ => none, headContent := .symbolicRef "refs/heads/main",
      commits := [], nextOid := 0, indexBytes := [], worktree := [] }
    { refs := fun _ => none, headContent := .symbolicRef "refs/heads/main",
      commits := [], nextOid := 0, indexBytes := [], worktree := [] }
    [.file "a" [49] false] [.file "b" [50] true] "m" "m2" 0 0 _ _ rfl rfl⟩

/-! ## C6: shape of slugify output -/

/-- Claim C6, counterexample: slugify imposes no length bound, so the
64-character input aaaa...a (64 times) yields a nonempty output of
length 64, falsifying the claimed 1-63 length cap. -/
theorem C6_counterexample :
    slugify (String.mk (List.replicate 64 'a')) ≠ "" ∧
    ¬((slugify (String.mk (List.replicate 64 'a'))).length ≤ MAX_SLUG_LENGTH) := by
  decide

/-- Claim C6, amended: for every input s, slugify(s) is either empty or
a nonempty string over [a-z0-9-] with no leading dash, no trailing dash
and no two consecutive dashes; slugify itself imposes no length bound
(the 63-character cap is enforced separately by validate_slug inside
slugify_name). -/
theorem C6_amended (s : String) :
    slugify s = "" ∨
      (slugify s ≠ "" ∧ (∀ c ∈ (slugify s).data, isSlugChar c = true) ∧
       (∀ c, (slugify s).data.head? = some c → c ≠ '-') ∧
       (∀ c, (slugify s).data.getLast? = some c → c ≠ '-') ∧
       NoDoubleDash (slugify s).data) := by
  have hdata : (slugify s).data = trimDashes (slugifyCore s.data false) := rfl
  by_cases h : trimDashes (slugifyCore s.data false) = []
  · left
    unfold slugify
    rw [h]
  · right
    refine ⟨?_, ?_, ?_, ?_, ?_⟩
    · intro he
      apply h
      have hd : (slugify s).data = ("" : String).data := by rw [he]
      rw [hdata] at hd
      simpa using hd
    · intro c hc
      rw [hdata] at hc
      exact slugifyCore_chars s.data false c (mem_trimDashes _ c hc)
    · intro c hc
      rw [hdata] at hc
      exact head_trimDashes _ c hc
    · intro c hc
      rw [hdata] at hc
      exact last_trimDashes _ c hc
    · rw [hdata]
      exact chain_trimDashes _ (slugifyCore_chain s.data false).1

/-! ## C7: idempotence of the compute verbs -/

/-- Claim C7, counterexample: the claim says pause_container succeeds
when the engine answers 404, but DockerCompute::pause_container only
swallows 409 and wraps a 404 response in a ContainerPause error. -/
theorem C7_counterexample :
    pauseContainer (.error (.dockerResponseServerError 404 "no such container")) =
      .error (.compute (.containerPause
        (.dockerResponseServerError 404 "no such container"))) := rfl

/-- Claim C7, amended: pause_container and resume_container return
success on engine success and on 409 (already in target state) but
surface 404 as an error, while delete_container returns success on
engine success and on 404 (gone) but surfaces 409. -/
theorem C7_amended (m : String) :
    pauseContainer (.ok ()) = .ok () ∧
    pauseContainer (.error (.dockerResponseServerError 409 m)) = .ok () ∧
    pauseContainer (.error (.dockerResponseServerError 404 m)) =
      .error (.compute (.containerPause (.dockerResponseServerError 404 m))) ∧
    resumeContainer (.ok ()) = .ok () ∧
    resumeContainer (.error (.dockerResponseServerError 409 m)) = .ok () ∧
    resumeContainer (.error (.dockerResponseServerError 404 m)) =
      .error (.compute (.containerResume (.dockerResponseServerError 404 m))) ∧
    deleteContainer (.ok ()) = .ok () ∧
    deleteContainer (.error (.dockerResponseServerError 404 m)) = .ok () ∧
    deleteContainer (.error (.dockerResponseServerError 409 m)) =
      .error (.compute (.containerDelete (.dockerResponseServerError 409 m))) :=
  ⟨rfl, rfl, rfl, rfl, rfl, rfl, rfl, rfl, rfl⟩

/-! ## C8: missing or out-of-range exec exit codes -/

/-- Claim C8, counterexample: a post-exec inspect with no exit code
yields exit_code 1 (unwrap_or(1)), not the saturating i32::MAX the claim
asserts. -/
theorem C8_counterexample :
    execExitCode none = 1 ∧ execExitCode none ≠ i32Max := by
  refine ⟨rfl, by decide⟩

/-- Claim C8, amended: a missing exit code maps to 1; an exit code that
is present but outside i32 range saturates to i32::MAX; an in-range exit
code is returned unchanged. -/
theorem C8_amended (v w : Int) (hv : v < i32Min ∨ i32Max < v)
    (hw : i32Min ≤ w ∧ w ≤ i32Max) :
    execExitCode none = 1 ∧ execExitCode (some v) = i32Max ∧
      execExitCode (some w) = w := by
  refine ⟨rfl, ?_, ?_⟩
  · simp only [execExitCode, Option.getD_some]
    exact if_pos hv
  · have h : ¬(w < i32Min ∨ i32Max < w) := by
      simp only [i32Min, i32Max] at hw ⊢
      omega
    simp only [execExitCode, Option.getD_some, if_neg h]

/-- Witness for C8_amended at the out-of-range code 2 to the 40 and the
in-range code 7. -/
theorem C8_witness :
    (((2 : Int) ^ 40 < i32Min ∨ i32Max < (2 : Int) ^ 40) ∧
      (i32Min ≤ (7 : Int) ∧ (7 : Int) ≤ i32Max)) ∧
    (execExitCode none = 1 ∧ execExitCode (some ((2 : Int) ^ 40)) = i32Max ∧
      execExitCode (some 7) = 7) :=
  ⟨⟨by decide, by decide⟩, C8_amended ((2 : Int) ^ 40) 7 (by decide) (by decide)⟩

theorem char_toNat_inj {c1 c2 : Char} (h : c1.toNat = c2.toNat) : c1 = c2 := by
  apply Char.eq_of_val_eq
  apply UInt32.ext
  simpa [Char.toNat, UInt32.toNat] using h

theorem slugMapChar_toNat (a : Char) (ha : isSlugChar a = true) :
    (asciiUpper (if a = '-' then '_' else a)).toNat =
      (if a.toNat = 45 then 95
       else if 97 ≤ a.toNat ∧ a.toNat ≤ 122 then a.toNat - 32 else a.toNat) := by
  by_cases h45 : a = '-'
  · subst h45
    decide
  · have hna : a.toNat ≠ 45 := by
      intro hh
      exact h45 (char_toNat_inj (hh.trans (by decide)))
    rw [if_neg h45, if_neg hna]
    unfold asciiUpper
    by_cases hlow : 97 ≤ a.toNat ∧ a.toNat ≤ 122
    · rw [if_pos hlow, if_pos hlow, toNat_ofNat_valid _ (by omega)]
    · rw [if_neg hlow, if_neg hlow]

theorem slugMapChar_inj (a b : Char) (ha : isSlugChar a = true)
    (hb : isSlugChar b = true)
    (h : asciiUpper (if a = '-' then '_' else a) =
      asciiUpper (if b = '-' then '_' else b)) : a = b := by
  have hn := congrArg Char.toNat h
  rw [slugMapChar_toNat a ha, slugMapChar_toNat b hb] at hn
  simp only [isSlugChar, Bool.or_eq_true, Bool.and_eq_true, decide_eq_true_eq]
    at ha hb
  apply char_toNat_inj
  split_ifs at hn <;> omega

theorem mapSlugChars_inj :
    ∀ (l1 l2 : List Char), (∀ c ∈ l1, isSlugChar c = true) →
      (∀ c ∈ l2, isSlugChar c = true) →
      l1.map (fun c => asciiUpper (if c = '-' then '_' else c)) =
        l2.map (fun c => asciiUpper (if c = '-' then '_' else c)) →
      l1 = l2
  | [], [], _, _, _ => rfl
  | [], _ :: _, _, _, h => by simp at h
  | _ :: _, [], _, _, h => by simp at h
  | a :: as, b :: bs, ha, hb, h => by
    simp only [List.map_cons, List.cons.injEq] at h
    have hhead : a = b :=
      slugMapChar_inj a b (ha a (List.mem_cons_self a as))
        (hb b (List.mem_cons_self b bs)) h.1
    have htail : as = bs :=
      mapSlugChars_inj as bs (fun c hc => ha c (List.mem_cons_of_mem a hc))
        (fun c hc => hb c (List.mem_cons_of_mem b hc)) h.2
    rw [hhead, htail]

theorem string_data_inj {s t : String} (h : s.data = t.data) : s = t :=
  String.ext h

theorem envVarForSlug_inj (s t : String) (hs : s.data.all isSlugChar = true)
    (ht : t.data.all isSlugChar = true)
    (h : envVarForSlug s = envVarForSlug t) : s = t := by
  unfold envVarForSlug at h
  have hd := congrArg String.data h
  rw [String.data_append, String.data_append] at hd
  have hmap := List.append_cancel_left hd
  simp only [List.all_eq_true] at hs ht
  exact string_data_inj (mapSlugChars_inj s.data t.data hs ht hmap)

theorem slugifyName_ok (name s : String) (h : slugifyName name = .ok s) :
    s = slugify name ∧ validSlug s = true := by
  unfold slugifyName at h
  by_cases hv : validSlug (slugify name) = true
  · rw [if_pos hv] at h
    injection h with h
    exact ⟨h.symm, h ▸ hv⟩
  · rw [if_neg hv] at h
    exact absurd h (by simp)

theorem validSlug_chars (s : String) (h : validSlug s = true) :
    s.data.all isSlugChar = true := by
  unfold validSlug at h
  simp only [Bool.and_eq_true] at h
  exact h.2

theorem allocateHostPort_range (s e seed : Nat) (bind : Nat → Nat → Bool)
    (p : Nat) (hse : s ≤ e) (h : allocateHostPort s e seed bind = .ok p) :
    s ≤ p ∧ p ≤ e := by
  unfold allocateHostPort at h
  rw [if_neg (by omega)] at h
  cases hf : (List.range (min PORT_ALLOC_MAX_RETRIES (e - s + 1))).find?
      (fun attempt => bind attempt (s + (seed + attempt) % (e - s + 1))) with
  | none =>
    rw [hf] at h
    exact absurd h (by simp)
  | some attempt =>
    rw [hf] at h
    injection h with h
    have hlt : (seed + attempt) % (e - s + 1) < e - s + 1 :=
      Nat.mod_lt _ (by omega)
    omega

theorem buildGo_valid :
    ∀ (ports : List ForwardedPort) (seen : List String) (i : Nat)
      (seeds : Nat → Nat) (bindOk : Nat → Nat → Nat → Bool)
      (env : List String) (binds : List (String × Nat))
      (fwd : List ForwardedPortMapping),
      validatePortsGo ports seen = .ok () →
      buildForwardedPortsGo seeds bindOk ports i = .ok (env, binds, fwd) →
      List.Pairwise (fun a b => a ≠ b)
        (fwd.map (fun m => m.envVar)) ∧
      (∀ m ∈ fwd, DEFAULT_PORT_RANGE_START ≤ m.hostPort ∧
        m.hostPort ≤ DEFAULT_PORT_RANGE_END) ∧
      (∀ m ∈ fwd, ∃ sl, slugifyName m.name = .ok sl ∧
        m.envVar = envVarForSlug sl ∧ sl ∉ seen)
  | [], seen, i, seeds, bindOk, env, binds, fwd, _, hb => by
    unfold buildForwardedPortsGo at hb
    injection hb with hb
    injection hb with he hb
    injection hb with hbinds hfwd
    subst hfwd
    simp
  | port :: rest, seen, i, seeds, bindOk, env, binds, fwd, hv, hb => by
    unfold validatePortsGo at hv
    unfold buildForwardedPortsGo at hb
    by_cases ht : port.target = 0
    · rw [if_pos ht] at hv
      exact absurd hv (by simp)
    rw [if_neg ht] at hv
    cases hsl : slugifyName port.name with
    | error e =>
      rw [hsl] at hb
      exact absurd hb (by simp)
    | ok slug =>
      rw [hsl] at hv hb
      simp only at hv hb
      by_cases hseen : slug ∈ seen
      · rw [if_pos hseen] at hv
        exact absurd hv (by simp)
      rw [if_neg hseen] at hv
      cases halloc : allocateHostPort DEFAULT_PORT_RANGE_START
          DEFAULT_PORT_RANGE_END (seeds i) (bindOk i) with
      | error e =>
        rw [halloc] at hb
        exact absurd hb (by simp)
      | ok hostPort =>
        rw [halloc] at hb
        cases hrest : buildForwardedPortsGo seeds bindOk rest (i + 1) with
        | error e =>
          rw [hrest] at hb
          exact absurd hb (by simp)
        | ok triple =>
          rw [hrest] at hb
          obtain ⟨env2, binds2, fwd2⟩ := triple
          injection hb with hb
          injection hb with henv hb
          injection hb with hbinds hfwd
          subst hfwd
          have IH := buildGo_valid rest (slug :: seen) (i + 1) seeds bindOk
            env2 binds2 fwd2 hv hrest
          have hrange := allocateHostPort_range _ _ _ _ _ (by decide) halloc
          refine ⟨?_, ?_, ?_⟩
          · rw [List.map_cons]
            rw [List.pairwise_cons]
            refine ⟨?_, IH.1⟩
            intro y hy hcontra
            rw [List.mem_map] at hy
            obtain ⟨m, hm, hym⟩ := hy
            obtain ⟨sl, hslok, hslenv, hslseen⟩ := IH.2.2 m hm
            have hslug := slugifyName_ok port.name slug hsl
            have hsl2 := slugifyName_ok m.name sl hslok
            have hchars1 := validSlug_chars slug hslug.2
            have hchars2 := validSlug_chars sl hsl2.2
            have : slug = sl := by
              apply envVarForSlug_inj slug sl hchars1 hchars2
              rw [← hym] at hcontra
              rw [← hslenv]
              exact hcontra
            apply hslseen
            rw [← this]
            exact List.mem_cons_self slug seen
          · intro m hm
            rcases List.mem_cons.mp hm with h1 | h2
            · rw [h1]
              exact hrange
            · exact IH.2.1 m h2
          · intro m hm
            rcases List.mem_cons.mp hm with h1 | h2
            · refine ⟨slug, ?_, ?_, hseen⟩
              · rw [h1]
                exact hsl
              · rw [h1]
            · obtain ⟨sl, h1, h2, h3⟩ := IH.2.2 m h2
              refine ⟨sl, h1, h2, fun hmem => h3 (List.mem_cons_of_mem _ hmem)⟩

/-! ## C9: forwarded-port env vars and host ports -/

/-- Claim C9, counterexample: a validated two-port config in which every
TCP bind probe succeeds and both allocator calls see clock seed 0: both
ports receive host port 3000, so the claimed pairwise distinctness of
host ports fails (the probe listener is released before the port is
used, and nothing links the independent allocator calls). -/
theorem C9_counterexample :
    validatePorts [⟨"web", 8080⟩, ⟨"api", 9090⟩] = .ok () ∧
    buildForwardedPorts [⟨"web", 8080⟩, ⟨"api", 9090⟩] (fun _ => 0)
        (fun _ _ _ => true) =
      .ok (["LITTERBOX_FWD_PORT_WEB=3000", "LITTERBOX_FWD_PORT_API=3000"],
        [("8080/tcp", 3000), ("9090/tcp", 3000)],
        [{ name := "web", target := 8080, hostPort := 3000,
           envVar := "LITTERBOX_FWD_PORT_WEB" },
         { name := "api", target := 9090, hostPort := 3000,
           envVar := "LITTERBOX_FWD_PORT_API" }]) ∧
    ¬ List.Pairwise (fun a b => a ≠ b) ([3000, 3000] : List Nat) := by
  refine ⟨rfl, rfl, ?_⟩
  decide

/-- Claim C9, amended: for a config whose forwarded_ports pass
validate_ports, build_forwarded_ports assigns pairwise distinct env_vars
and host ports inside the configured range [3000, 8000]; distinctness of
the host ports themselves is only best-effort and is not guaranteed. -/
theorem C9_amended (ports : List ForwardedPort) (seeds : Nat → Nat)
    (bindOk : Nat → Nat → Nat → Bool) (env : List String)
    (binds : List (String × Nat)) (fwd : List ForwardedPortMapping)
    (h1 : validatePorts ports = .ok ())
    (h2 : buildForwardedPorts ports seeds bindOk = .ok (env, binds, fwd)) :
    List.Pairwise (fun a b => a ≠ b) (fwd.map (fun m => m.envVar)) ∧
      ∀ m ∈ fwd, DEFAULT_PORT_RANGE_START ≤ m.hostPort ∧
        m.hostPort ≤ DEFAULT_PORT_RANGE_END := by
  unfold buildForwardedPorts at h2
  by_cases hp : ports.isEmpty = true
  · rw [if_pos hp] at h2
    injection h2 with h2
    injection h2 with he h2
    injection h2 with hbinds hfwd
    subst hfwd
    simp
  · rw [if_neg hp] at h2
    have h := buildGo_valid ports [] 0 seeds bindOk env binds fwd h1 h2
    exact ⟨h.1, h.2.1⟩

/-- Witness for C9_amended at the single validated port web 8080 with
all bind probes succeeding. -/
theorem C9_witness :
    validatePorts [⟨"web", 8080⟩] = .ok () ∧
    buildForwardedPorts [⟨"web", 8080⟩] (fun _ => 0) (fun _ _ _ => true) =
      .ok (["LITTERBOX_FWD_PORT_WEB=3000"], [("8080/tcp", 3000)],
        [{ name := "web", target := 8080, hostPort := 3000,
           envVar := "LITTERBOX_FWD_PORT_WEB" }]) ∧
    (List.Pairwise (fun a b => a ≠ b)
      (([{ name := "web", target := 8080, hostPort := 3000,
           envVar := "LITTERBOX_FWD_PORT_WEB" }] :
        List ForwardedPortMapping).map (fun m => m.envVar)) ∧
      ∀ m ∈ ([{ name := "web", target := 8080, hostPort := 3000,
                envVar := "LITTERBOX_FWD_PORT_WEB" }] : List ForwardedPortMapping),
        DEFAULT_PORT_RANGE_START ≤ m.hostPort ∧
          m.hostPort ≤ DEFAULT_PORT_RANGE_END) :=
  ⟨rfl, rfl, C9_amended [⟨"web", 8080⟩] (fun _ => 0) (fun _ _ _ => true)
    ["LITTERBOX_FWD_PORT_WEB=3000"] [("8080/tcp", 3000)]
    [{ name := "web", target := 8080, hostPort := 3000,
       envVar := "LITTERBOX_FWD_PORT_WEB" }] rfl rfl⟩

/-! ## C5: missing branch teardown on a port-allocation failure -/

/-- Claim C5, failing run: with every external step succeeding, a config
whose forwarded-port name slugifies to the empty string makes
build_forwarded_ports fail after the sandbox branch was created; create
propagates the error with a bare question mark and returns with the
branch still in existence, contradicting the claim (and the spec, which
demands that every failure after branch creation deletes the branch). -/
theorem C5_failing_theorem :
    createSandbox
      { createBranchFail := none, repoPfxRes := .ok "litterbox",
        makeArchiveRes := .ok (), stageArchiveRes := .ok (),
        ensureImageRes := .ok (), portSeeds := fun _ => 0,
        portBindOk := fun _ _ _ => true, createContainerRes := .ok "cid",
        uploadPathRes := .ok (), setupExecRes := .ok ⟨0, "", ""⟩ }
      { branch := false, container := false } "demo"
      { image := "busybox:latest", setupCommand := none,
        forwardedPorts := [⟨"----", 8080⟩] } =
    (.error (.invalidName "----" invalidSlugReason),
      { branch := true, container := false }) := rfl

/-! ## C10: sandbox-name resolution and the 404 marker -/

/-- Claim C10: for a name that slugifies successfully,
resolve_sandbox_metadata (a pure function of the name, the loaded
config and the repository prefix, making no container-engine call)
synthesizes metadata with status Active, an empty forwarded-port list
and container id litterbox-prefix-slug; and map_sandbox_error turns the
container-missing marker (404 from exec or inspect) into the
invalid_params Sandbox-not-found error. -/
theorem C10_resolution (name slug workdirBase m1 m2 : String)
    (slugOverride : Option String)
    (h : slugifyName name = .ok slug) :
    resolveSandboxMetadata name (.ok slugOverride) none workdirBase =
      .ok { name := name, branchName := "litterbox/" ++ slug,
            containerId := "litterbox-" ++
              threadSafeRepoPfx slugOverride workdirBase ++ "-" ++ slug,
            status := .active, forwardedPorts := [] } ∧
    mapSandboxError name (.compute (.containerExec
        (.dockerResponseServerError 404 m1))) =
      .invalidParams ("Sandbox \x27" ++ name ++ "\x27 not found.") ∧
    mapSandboxError name (.compute (.containerInspect
        (.dockerResponseServerError 404 m2))) =
      .invalidParams ("Sandbox \x27" ++ name ++ "\x27 not found.") := by
  refine ⟨?_, rfl, rfl⟩
  simp [resolveSandboxMetadata, h, branchNameForSlug, containerNameForSlug]

/-- Witness for C10_resolution at the name My Feature!. -/
theorem C10_witness :
    slugifyName "My Feature!" = .ok "my-feature" ∧
    (resolveSandboxMetadata "My Feature!" (.ok (some "proj")) none "repo-dir" =
      .ok { name := "My Feature!", branchName := "litterbox/" ++ "my-feature",
            containerId := "litterbox-" ++
              threadSafeRepoPfx (some "proj") "repo-dir" ++ "-" ++ "my-feature",
            status := .active, forwardedPorts := [] } ∧
    mapSandboxError "My Feature!" (.compute (.containerExec
        (.dockerResponseServerError 404 "no such container"))) =
      .invalidParams ("Sandbox \x27My Feature!\x27 not found.") ∧
    mapSandboxError "My Feature!" (.compute (.containerInspect
        (.dockerResponseServerError 404 "no such container"))) =
      .invalidParams ("Sandbox \x27My Feature!\x27 not found.")) :=
  ⟨rfl, C10_resolution "My Feature!" "my-feature" "repo-dir"
    "no such container" "no such container" (some "proj") rfl⟩

end Litterbox
